import Mathlib

/-!
Verification development for the Strong-app workout text parser
(`strong_parser.py`).  The Python module is shallowly embedded below:

* the regular expressions `SET_PATTERN`, `BODYWEIGHT_PATTERN`,
  `DURATION_PATTERN` and the ad-hoc patterns inside `is_strong_workout`
  are embedded as explicit backtracking matchers over `List Char`,
  mirroring the leftmost-`search`, greedy-with-backtracking semantics of
  Python's `re` engine on these particular patterns;
* the classes `WorkoutSet`, `Exercise`, `Workout` are structures;
* `parse_workout` is a fold over the input lines; the Python `int()` /
  `float()` conversions are modelled by fallible functions returning
  `Except`, and the top-level `try/except` by converting the `Except`
  result to an `Option`;
* the external date libraries (`dateparser.parse` plus the `dateutil`
  fallback) are modelled by an abstract resolution function
  `resolve : String → Option Int` supplied as a parameter, with the
  current instant `now : Int`; the weekday-cleaning `re.sub` is embedded
  concretely as `cleanDateLine`.
-/

/-- ASCII whitespace, as matched by `\s` in the patterns (Python's `\s`
also matches some further Unicode whitespace; the inputs concerned here
only contain these). -/
def isWs (c : Char) : Bool :=
  c = ' ' || c = '\t' || c = '\n' || c = '\r' || c = '\x0b' || c = '\x0c'

/-- `\d`: ASCII decimal digit. -/
def isDigitCh (c : Char) : Bool := c.isDigit

/-- The character class `[\d:]` of `DURATION_PATTERN`. -/
def isDurCh (c : Char) : Bool := isDigitCh c || c = ':'

/-- Case-insensitive character comparison (`re.IGNORECASE`; ASCII fold). -/
def chIEq (a b : Char) : Bool := a.toLower == b.toLower

/-- Match a literal (case-insensitively); return the rest of the input on
success.  Embeds a literal token of a pattern under `re.IGNORECASE`. -/
def litCI : List Char → List Char → Option (List Char)
  | [], cs => some cs
  | _ :: _, [] => none
  | p :: ps, c :: cs => if chIEq p c then litCI ps cs else none

/-- `\s*` before an atom that can never match a whitespace character:
maximal munch is then equivalent to the greedy-with-backtracking
semantics, because giving back a whitespace character can never let the
next atom match. -/
def wsSkip (cs : List Char) : List Char := cs.dropWhile isWs

/-- Python `str.strip()`: drop leading and trailing whitespace. -/
def trimL (cs : List Char) : List Char :=
  ((cs.dropWhile isWs).reverse.dropWhile isWs).reverse

/-- Python `str.strip()` on a string. -/
def pyStrip (s : String) : String := String.mk (trimL s.toList)

/-- Python `str.startswith(pre)` (case-sensitive). -/
def pyStartsWith (s pre : String) : Bool := pre.toList.isPrefixOf s.toList

/-- Python `str.split('\n')`: split at every newline, keeping empty
segments; the empty string yields a single empty segment. -/
def splitNL : List Char → List (List Char)
  | [] => [[]]
  | '\n' :: t => [] :: splitNL t
  | c :: t =>
    match splitNL t with
    | [] => [[c]]
    | l :: ls => (c :: l) :: ls

/-- `re.search` semantics: try the anchored matcher at every start
position, leftmost match wins. -/
def searchL (f : List Char → Option α) : List Char → Option α
  | [] => f []
  | c :: cs =>
    match f (c :: cs) with
    | some r => some r
    | none => searchL f cs

/-- `(?:Série|Set)` — the two label alternatives tried in order, each
with its continuation `k`: an alternative succeeds when its label matches
the prefix and the rest of the pattern succeeds after it; otherwise the
engine moves to the next alternative. -/
def labelSerieSet (k : List Char → Option α) (cs : List Char) : Option α :=
  ((litCI ['s', 'é', 'r', 'i', 'e'] cs).bind k).orElse
    (fun _ => (litCI ['s', 'e', 't'] cs).bind k)

/-- Tail of `SET_PATTERN` after the optional index and colon:
`\s*(?:\+)?(\d+(?:\.\d+)?)\s*kg\s*×\s*(\d+)\s*reps?`.
Returns the weight capture and the reps capture.

All the residual choice points are determinate here: `(?:\+)?` must take
the `+` when present (a digit must follow either way); shortening the
greedy digit runs can never succeed because the character given back is a
digit, which matches none of the follow-set characters (`.`, whitespace,
`k`, `r`); an unparenthesised fraction that matches but whose
continuation fails leaves a follow-up position at `.` where the
continuation fails as well. -/
def setTail (cs : List Char) : Option (List Char × List Char) :=
  let cs1 := wsSkip cs
  let cs2 := match cs1 with
    | '+' :: t => t
    | _ => cs1
  let w := cs2.takeWhile isDigitCh
  if w.isEmpty then none else
  let cs3 := cs2.drop w.length
  let wf : List Char × List Char :=
    match cs3 with
    | '.' :: cs3' =>
      let f := cs3'.takeWhile isDigitCh
      if f.isEmpty then (w, cs3) else (w ++ '.' :: f, cs3'.drop f.length)
    | _ => (w, cs3)
  match litCI ['k', 'g'] (wsSkip wf.2) with
  | none => none
  | some cs6 =>
    match wsSkip cs6 with
    | '×' :: cs8 =>
      let cs9 := wsSkip cs8
      let r := cs9.takeWhile isDigitCh
      if r.isEmpty then none else
      match litCI ['r', 'e', 'p'] (wsSkip (cs9.drop r.length)) with
      | some _ => some (wf.1, r)
      | none => none
    | _ => none

/-- The `:?` choice point followed by a tail matcher: greedy, so the colon
is consumed first and, on failure of the continuation, given back. -/
def colonOpt (tail : List Char → Option α) (cs : List Char) : Option α :=
  match cs with
  | ':' :: cs' =>
    match tail cs' with
    | some r => some r
    | none => tail cs
  | _ => tail cs

/-- The optional-index region `(\d+)?:?` of `SET_PATTERN`, followed by
`setTail`.  `run` is the maximal digit run at `cs1`; the greedy engine
tries capture lengths `run.length, run.length - 1, …, 1`, then the absent
group, each combined with the `:?` choice.  The parameter `k` is the
candidate capture length currently being tried. -/
def setIdxLoop (run cs1 : List Char) : Nat → Option (Option (List Char) × List Char × List Char)
  | 0 =>
    match colonOpt setTail cs1 with
    | some (w, r) => some (none, w, r)
    | none => none
  | k + 1 =>
    match colonOpt setTail (cs1.drop (k + 1)) with
    | some (w, r) => some (some (run.take (k + 1)), w, r)
    | none => setIdxLoop run cs1 k

/-- The part of `SET_PATTERN` after the label token:
`\s*` then the optional-index loop. -/
def setAfterLabel (rest : List Char) : Option (Option (List Char) × List Char × List Char) :=
  let cs1 := wsSkip rest
  let run := cs1.takeWhile isDigitCh
  setIdxLoop run cs1 run.length

/-- `SET_PATTERN` anchored at the current position:
`(?:Série|Set|W:)\s*(\d+)?:?\s*(?:\+)?(\d+(?:\.\d+)?)\s*kg\s*×\s*(\d+)\s*reps?`
(`re.IGNORECASE`).  Returns `(group 1?, group 2, group 3)`; the three
label alternatives are tried in order. -/
def setAt (cs : List Char) : Option (Option (List Char) × List Char × List Char) :=
  ((litCI ['s', 'é', 'r', 'i', 'e'] cs).bind setAfterLabel).orElse (fun _ =>
    ((litCI ['s', 'e', 't'] cs).bind setAfterLabel).orElse (fun _ =>
      (litCI ['w', ':'] cs).bind setAfterLabel))

/-- `StrongParser.SET_PATTERN.search` on a (stripped) line. -/
def setSearch (s : String) : Option (Option (List Char) × List Char × List Char) :=
  searchL setAt s.toList

/-- Tail of `BODYWEIGHT_PATTERN` after the index and colon:
`\s*(\d+)\s*reps?` — returns the reps capture. -/
def bwTail (cs : List Char) : Option (List Char) :=
  let cs1 := wsSkip cs
  let r := cs1.takeWhile isDigitCh
  if r.isEmpty then none else
  match litCI ['r', 'e', 'p'] (wsSkip (cs1.drop r.length)) with
  | some _ => some r
  | none => none

/-- Mandatory-index loop for `BODYWEIGHT_PATTERN`'s `(\d+):?`:
capture lengths tried greedily from longest to `1`. -/
def bwIdxLoop (run cs1 : List Char) : Nat → Option (List Char × List Char)
  | 0 => none
  | k + 1 =>
    match colonOpt bwTail (cs1.drop (k + 1)) with
    | some r => some (run.take (k + 1), r)
    | none => bwIdxLoop run cs1 k

/-- The part of `BODYWEIGHT_PATTERN` after the label token. -/
def bwAfterLabel (rest : List Char) : Option (List Char × List Char) :=
  let cs1 := wsSkip rest
  let run := cs1.takeWhile isDigitCh
  bwIdxLoop run cs1 run.length

/-- `BODYWEIGHT_PATTERN` anchored at the current position:
`(?:Série|Set)\s*(\d+):?\s*(\d+)\s*reps?` (`re.IGNORECASE`). -/
def bwAt (cs : List Char) : Option (List Char × List Char) :=
  labelSerieSet bwAfterLabel cs

/-- `StrongParser.BODYWEIGHT_PATTERN.search` on a (stripped) line. -/
def bwSearch (s : String) : Option (List Char × List Char) :=
  searchL bwAt s.toList

/-- Tail of `DURATION_PATTERN` after the index and colon:
`\s*([\d:]+)` — returns the duration capture. -/
def durTail (cs : List Char) : Option (List Char) :=
  let cs1 := wsSkip cs
  let d := cs1.takeWhile isDurCh
  if d.isEmpty then none else some d

/-- Mandatory-index loop for `DURATION_PATTERN`'s `(\d+):?`. -/
def durIdxLoop (run cs1 : List Char) : Nat → Option (List Char × List Char)
  | 0 => none
  | k + 1 =>
    match colonOpt durTail (cs1.drop (k + 1)) with
    | some r => some (run.take (k + 1), r)
    | none => durIdxLoop run cs1 k

/-- The part of `DURATION_PATTERN` after the label token. -/
def durAfterLabel (rest : List Char) : Option (List Char × List Char) :=
  let cs1 := wsSkip rest
  let run := cs1.takeWhile isDigitCh
  durIdxLoop run cs1 run.length

/-- `DURATION_PATTERN` anchored at the current position:
`(?:Série|Set)\s*(\d+):?\s*([\d:]+)` (`re.IGNORECASE`). -/
def durAt (cs : List Char) : Option (List Char × List Char) :=
  labelSerieSet durAfterLabel cs

/-- `StrongParser.DURATION_PATTERN.search` on a (stripped) line. -/
def durSearch (s : String) : Option (List Char × List Char) :=
  searchL durAt s.toList

/-- The weekday alternation of the `re.sub` pattern in `parse_workout`
(line 142), in source order; every alternative is followed by the literal
`-feira` in the pattern. -/
def weekdayNames : List (List Char) :=
  [['s','e','g','u','n','d','a'], ['t','e','r','ç','a'], ['q','u','a','r','t','a'],
   ['q','u','i','n','t','a'], ['s','e','x','t','a'], ['s','á','b','a','d','o'],
   ['d','o','m','i','n','g','o'], ['m','o','n','d','a','y'], ['t','u','e','s','d','a','y'],
   ['w','e','d','n','e','s','d','a','y'], ['t','h','u','r','s','d','a','y'],
   ['f','r','i','d','a','y'], ['s','a','t','u','r','d','a','y'], ['s','u','n','d','a','y']]

/-- The `,?` of the weekday pattern (greedy, determinate because the
pattern ends in `\s*`, which also matches whatever follows). -/
def commaOpt : List Char → List Char
  | ',' :: t => t
  | cs => cs

/-- One alternative of the weekday pattern anchored at the current
position: the name, then `-feira`, then `,?`, then `\s*` (all greedy; the
trailing options are determinate since the pattern ends there). -/
def wkTry (nm cs : List Char) : Option (List Char) :=
  match litCI nm cs with
  | some r1 =>
    match litCI ['-','f','e','i','r','a'] r1 with
    | some r2 => some (wsSkip (commaOpt r2))
    | none => none
  | none => none

/-- The full weekday alternation anchored at the current position. -/
def weekdaySub : List (List Char) → List Char → Option (List Char)
  | [], _ => none
  | nm :: nms, cs =>
    match wkTry nm cs with
    | some r => some r
    | none => weekdaySub nms cs

/-- The global substitution
`re.sub(r'(segunda|…|sunday)-feira,?\s*', '', date_line, flags=re.IGNORECASE)`:
scan left to right, delete every non-overlapping leftmost match, resume
after the deleted text.  Structural recursion on a fuel argument; by
`weekdaySub_length` every step consumes at least one input character, so
fuel equal to the input length is never exhausted and the function
computes the full substitution. -/
def cleanSub : Nat → List Char → List Char
  | 0, cs => cs
  | _ + 1, [] => []
  | fuel + 1, c :: cs =>
    match weekdaySub weekdayNames (c :: cs) with
    | some rest => cleanSub fuel rest
    | none => c :: cleanSub fuel cs

/-- The weekday-cleaning step applied to a date line. -/
def cleanDateLine (s : String) : String :=
  String.mk (cleanSub s.toList.length s.toList)

/-- `WorkoutSet` (strong_parser.py lines 13–34).  `weight` is a Python
float; the weights producible by the grammar are decimal literals, so it
is modelled as a rational. -/
structure WorkoutSet where
  set_number : Nat
  weight : Option ℚ
  reps : Option Nat
  duration : Option String
  is_warmup : Bool
deriving Repr, DecidableEq

/-- `Exercise` (lines 37–52). -/
structure Exercise where
  name : String
  sets : List WorkoutSet
deriving Repr, DecidableEq

/-- `Workout` (lines 55–83).  The timestamp is abstracted to `Int`. -/
structure Workout where
  name : String
  date : Int
  exercises : List Exercise
deriving Repr, DecidableEq

/-- `Workout.get_total_sets` (lines 70–72). -/
def Workout.get_total_sets (w : Workout) : Nat :=
  (w.exercises.map (fun e => e.sets.length)).sum

/-- `Exercise.get_total_volume` (lines 47–49). -/
def Exercise.get_total_volume (e : Exercise) : ℚ :=
  (e.sets.map (fun s => (s.weight.getD 0) * ((s.reps.getD 0 : Nat) : ℚ))).sum

/-- `Workout.get_total_volume` (lines 66–68). -/
def Workout.get_total_volume (w : Workout) : ℚ :=
  (w.exercises.map Exercise.get_total_volume).sum

instance {ε α : Type} [DecidableEq ε] [DecidableEq α] : DecidableEq (Except ε α) :=
  fun a b =>
    match a, b with
    | .error x, .error y =>
      if h : x = y then .isTrue (by rw [h]) else .isFalse (by simp [h])
    | .error _, .ok _ => .isFalse (by simp)
    | .ok _, .error _ => .isFalse (by simp)
    | .ok x, .ok y =>
      if h : x = y then .isTrue (by rw [h]) else .isFalse (by simp [h])

/-- Numeric value of a digit string. -/
def digitsVal (cs : List Char) : Nat :=
  cs.foldl (fun a c => 10 * a + (c.toNat - 48)) 0

/-- Python `int(s)` on the capture strings: fails (raises `ValueError`,
modelled as `Except.error`) unless the string is a nonempty digit run. -/
def natE (cs : List Char) : Except String Nat :=
  if !cs.isEmpty && cs.all isDigitCh then .ok (digitsVal cs)
  else .error "invalid literal for int"

/-- Python `float(s)` on the capture strings: the grammar can only
produce `\d+` or `\d+.\d+`, and those are the shapes accepted here;
anything else is a `ValueError` (`Except.error`). -/
def floatE (cs : List Char) : Except String ℚ :=
  let ip := cs.takeWhile isDigitCh
  let rest := cs.dropWhile isDigitCh
  if ip.isEmpty then .error "could not convert string to float"
  else
    match rest with
    | [] => .ok (digitsVal ip : ℚ)
    | '.' :: fp =>
      if !fp.isEmpty && fp.all isDigitCh then
        .ok ((digitsVal ip : ℚ) + (digitsVal fp : ℚ) / (10 : ℚ) ^ fp.length)
      else .error "could not convert string to float"
    | _ => .error "could not convert string to float"

/-- `int(set_num_str) if set_num_str else len(current_exercise.sets) + 1`
(lines 192, 204, 214): the default applies when the capture is `None`
(group did not participate) or empty (falsy). -/
def setNumE (g1 : Option (List Char)) (ex : Exercise) : Except String Nat :=
  match g1 with
  | some s => if s.isEmpty then .ok (ex.sets.length + 1) else natE s
  | none => .ok (ex.sets.length + 1)

/-- One iteration of the accumulation loop of `parse_workout`
(lines 174–226).  State: (exercises committed to the workout so far,
current exercise or `None`). -/
def step (st : List Exercise × Option Exercise) (rawLine : String) :
    Except String (List Exercise × Option Exercise) :=
  let line := pyStrip rawLine
  if line.toList.isEmpty || pyStartsWith line "http" then .ok st
  else
    let sm := setSearch line
    let bm := bwSearch line
    let dm := durSearch line
    if sm.isSome || bm.isSome || dm.isSome then
      match st.2 with
      | none => .ok st
      | some ex =>
        match sm with
        | some (g1, ws, rs) =>
          match setNumE g1 ex, floatE ws, natE rs with
          | .ok n, .ok q, .ok r =>
            .ok (st.1, some ⟨ex.name, ex.sets ++
              [⟨n, some q, some r, none, pyStartsWith line "W:"⟩]⟩)
          | .error e, _, _ => .error e
          | _, .error e, _ => .error e
          | _, _, .error e => .error e
        | none =>
          match bm with
          | some (g1, rs) =>
            match setNumE (some g1) ex, natE rs with
            | .ok n, .ok r =>
              .ok (st.1, some ⟨ex.name, ex.sets ++ [⟨n, none, some r, none, false⟩]⟩)
            | .error e, _ => .error e
            | _, .error e => .error e
          | none =>
            match dm with
            | some (g1, ds) =>
              match setNumE (some g1) ex with
              | .ok n =>
                .ok (st.1, some ⟨ex.name, ex.sets ++
                  [⟨n, none, none, some (String.mk ds), false⟩]⟩)
              | .error e => .error e
            | none => .ok st
    else
      .ok (st.1 ++ (match st.2 with | some ex => [ex] | none => []),
           some ⟨line, []⟩)

/-- The accumulation loop over `lines[2:]`. -/
def processLines (ls : List String) : Except String (List Exercise × Option Exercise) :=
  ls.foldlM step ([], none)

/-- `# Add the last exercise` (lines 228–230): the trailing current
exercise is flushed only when it has at least one set. -/
def finalizeExercises (st : List Exercise × Option Exercise) : List Exercise :=
  st.1 ++ (match st.2 with
    | some ex => if ex.sets.isEmpty then [] else [ex]
    | none => [])

/-- Date handling for the second input line (lines 135–169): clean the
weekday prefix, hand the cleaned text to the external resolution
pipeline (`resolve`), and fall back to the current instant (`now`) when
resolution fails. -/
def resolveWorkoutDate (resolve : String → Option Int) (now : Int) (dateLine : String) : Int :=
  match resolve (cleanDateLine (pyStrip dateLine)) with
  | some d => d
  | none => now

/-- End of the `try` body (lines 228–237): flush the trailing exercise,
report `None` when no exercise was found, otherwise build the workout. -/
def assembleWorkout (nm : String) (dt : Int)
    (res : Except String (List Exercise × Option Exercise)) :
    Except String (Option Workout) :=
  match res with
  | .error e => .error e
  | .ok st =>
    let exs := finalizeExercises st
    .ok (if exs.isEmpty then none else some ⟨nm, dt, exs⟩)

/-- `text.strip().split('\n')` (line 128). -/
def workoutLines (text : String) : List String :=
  (splitNL (pyStrip text).toList).map String.mk

/-- Body of `StrongParser.parse_workout` (lines 124–237), i.e. the code
inside the top-level `try`.  `resolve` models the external date-library
pipeline (`dateparser.parse` with the `dateutil` fuzzy fallback and the
surrounding `ValueError`/`TypeError` handler) applied to the cleaned date
line; `now` models `datetime.now()`, substituted when resolution fails.
A `.error` is an exception reaching the top-level `except`. -/
def parseWorkoutE (resolve : String → Option Int) (now : Int) (text : String) :
    Except String (Option Workout) :=
  let lines := workoutLines text
  let workout_name := match lines with
    | [] => "Workout"
    | l :: _ => pyStrip l
  let workout_date := match lines[1]? with
    | none => now
    | some l => resolveWorkoutDate resolve now l
  assembleWorkout workout_name workout_date (processLines (lines.drop 2))

/-- `StrongParser.parse_workout`: the top-level
`except Exception: return None` (lines 239–241) turns any internal fault
into "no result". -/
def parse_workout (resolve : String → Option Int) (now : Int) (text : String) :
    Option Workout :=
  match parseWorkoutE resolve now text with
  | .ok r => r
  | .error _ => none

/-- `re.search(r'(?:Série|Set)\s*\d+:', text, re.IGNORECASE)` anchored at
the current position (`is_strong_workout`, line 118). -/
def markerAt (cs : List Char) : Option Unit :=
  labelSerieSet
    (fun rest =>
      let cs1 := wsSkip rest
      let run := cs1.takeWhile isDigitCh
      if run.isEmpty then none
      else
        match cs1.drop run.length with
        | ':' :: _ => some ()
        | _ => none)
    cs

/-- `re.search(r'\d+\s*kg\s*×\s*\d+\s*reps?', text, re.IGNORECASE)`
anchored at the current position (line 119). -/
def wrAt (cs : List Char) : Option Unit :=
  let r1 := cs.takeWhile isDigitCh
  if r1.isEmpty then none
  else
    match litCI ['k','g'] (wsSkip (cs.drop r1.length)) with
    | none => none
    | some cs2 =>
      match wsSkip cs2 with
      | '×' :: cs3 =>
        let cs4 := wsSkip cs3
        let r2 := cs4.takeWhile isDigitCh
        if r2.isEmpty then none
        else
          match litCI ['r','e','p'] (wsSkip (cs4.drop r2.length)) with
          | some _ => some ()
          | none => none
      | _ => none

/-- Substring test (Python `in` on strings). -/
def containsSub (nd : List Char) : List Char → Bool
  | [] => nd.isPrefixOf []
  | c :: t => nd.isPrefixOf (c :: t) || containsSub nd t

/-- `has_set_marker` (line 118). -/
def has_set_marker (t : String) : Bool := (searchL markerAt t.toList).isSome

/-- `has_weight_reps` (line 119). -/
def has_weight_reps (t : String) : Bool := (searchL wrAt t.toList).isSome

/-- `'strong.app' in text.lower()` (line 120). -/
def has_link (t : String) : Bool :=
  containsSub "strong.app".toList (t.toList.map Char.toLower)

/-- `StrongParser.is_strong_workout` (lines 114–122). -/
def is_strong_workout (t : String) : Bool :=
  has_set_marker t || has_weight_reps t || has_link t

/-- A line whose stripped form matches at least one of the three set
grammars. -/
def isMatchLine (l : String) : Bool :=
  (setSearch (pyStrip l)).isSome || (bwSearch (pyStrip l)).isSome ||
    (durSearch (pyStrip l)).isSome

/-- Number of lines matched by any of the three set grammars. -/
def matchedCount (ls : List String) : Nat := (ls.filter isMatchLine).length

/-- The skip condition of the accumulation loop (line 176). -/
def skipLine (l : String) : Bool :=
  (pyStrip l).toList.isEmpty || pyStartsWith (pyStrip l) "http"

/-- Shape of a `floatE`-acceptable weight capture. -/
def WeightShape (ws : List Char) : Prop := ∃ q, floatE ws = .ok q

/-- Shape of a `natE`-acceptable digit capture. -/
def DigitShape (cs : List Char) : Prop := cs ≠ [] ∧ cs.all isDigitCh = true

/-- Shape of group 1 as consumed by `setNumE`: absent, or a nonempty
digit run. -/
def Group1Shape (g1 : Option (List Char)) : Prop :=
  g1 = none ∨ ∃ s, g1 = some s ∧ DigitShape s

/-- Total number of sets held by a loop state: sets already committed to
the workout plus sets of the current exercise. -/
def stTotal (st : List Exercise × Option Exercise) : Nat :=
  (st.1.map (fun e => e.sets.length)).sum +
    (match st.2 with
      | some ex => ex.sets.length
      | none => 0)

/-- "Valid input" for claim C5, on the lines after the name and date
lines: some prefix of skippable (blank/link) lines is followed by an
exercise-name line (non-skipped, matching no set grammar); no line that
matches a set grammar is an `http` link (such a line would be skipped by
the code yet counted by the grammars); and at least one line matches a
set grammar (at least one set, which also forces at least one exercise). -/
def ValidWorkoutLines (ls : List String) : Prop :=
  (∃ pre e rest, ls = pre ++ e :: rest ∧ (∀ l ∈ pre, skipLine l = true) ∧
    skipLine e = false ∧ isMatchLine e = false) ∧
  (∀ l ∈ ls, isMatchLine l = true → pyStartsWith (pyStrip l) "http" = false) ∧
  (∃ l ∈ ls, isMatchLine l = true)

/-! ## Theorems -/

theorem litCI_length {p cs r : List Char} (h : litCI p cs = some r) :
    r.length + p.length = cs.length := by
  induction p generalizing cs with
  | nil => simp [litCI] at h; simp [h]
  | cons a p ih =>
    cases cs with
    | nil => simp [litCI] at h
    | cons c cs =>
      simp only [litCI] at h
      split at h
      · have := ih h; simp [List.length_cons]; omega
      · exact absurd h (by simp)

theorem commaOpt_length (cs : List Char) : (commaOpt cs).length ≤ cs.length := by
  unfold commaOpt
  split <;> simp

theorem wsSkip_length_le (cs : List Char) : (wsSkip cs).length ≤ cs.length :=
  (List.dropWhile_sublist isWs).length_le

theorem wkTry_length {nm cs r : List Char} (h : wkTry nm cs = some r) :
    r.length + nm.length + 6 ≤ cs.length := by
  unfold wkTry at h
  cases h1 : litCI nm cs with
  | none => simp [h1] at h
  | some r1 =>
    simp only [h1] at h
    cases h2 : litCI ['-','f','e','i','r','a'] r1 with
    | none => simp [h2] at h
    | some r2 =>
      simp only [h2, Option.some.injEq] at h
      subst h
      have e1 := litCI_length h1
      have e2 := litCI_length h2
      have h3 := commaOpt_length r2
      have h4 := wsSkip_length_le (commaOpt r2)
      simp only [List.length_cons] at e2
      omega

theorem weekdaySub_length {nms : List (List Char)} {cs r : List Char}
    (h : weekdaySub nms cs = some r) : r.length < cs.length := by
  induction nms with
  | nil => simp [weekdaySub] at h
  | cons nm nms ih =>
    simp only [weekdaySub] at h
    cases h1 : wkTry nm cs with
    | none => rw [h1] at h; exact ih h
    | some r1 =>
      rw [h1] at h
      simp only [Option.some.injEq] at h
      subst h
      have := wkTry_length h1
      omega

/-- C1, counterexample: in
`"T\nmonday\nExA\nExB\nSet 1: 20 kg × 12 reps"` the exercise-name line
`ExA` is immediately followed by the exercise-name line `ExB` with no set
lines in between, yet the parsed workout still contains `ExA` (with an
empty set list): the mid-loop close (`if current_exercise:` at line 224)
appends the current exercise without checking its sets. -/
theorem c1_empty_exercise_retained :
    parse_workout (fun _ => none) 0 "T\nmonday\nExA\nExB\nSet 1: 20 kg × 12 reps" =
      some ⟨"T", 0, [⟨"ExA", []⟩,
        ⟨"ExB", [⟨1, some 20, some 12, none, false⟩]⟩]⟩ := by
  decide

/-- C1 (amended): when the accumulation loop meets an exercise-name line
(non-blank, not a link, matching none of the three set grammars) while a
current exercise is open, the current exercise is appended to the workout
unconditionally — with no requirement that it contain a set — and a fresh
current exercise with no sets is opened; only the end-of-input flush
requires at least one set. -/
theorem c1_exercise_close_unconditional
    (w : List Exercise) (ex : Exercise) (l : String)
    (hne : (pyStrip l).toList.isEmpty = false)
    (hh : pyStartsWith (pyStrip l) "http" = false)
    (hs : setSearch (pyStrip l) = none) (hb : bwSearch (pyStrip l) = none)
    (hd : durSearch (pyStrip l) = none) :
    step (w, some ex) l = .ok (w ++ [ex], some ⟨pyStrip l, []⟩) := by
  have hne' : ¬(pyStrip l).data = [] := by
    intro hc
    simp only [String.toList] at hne
    rw [hc] at hne
    simp at hne
  unfold step
  simp [hne', hh, hs, hb, hd]

/-- Witness for `c1_exercise_close_unconditional` at a concrete set-less
open exercise. -/
theorem c1_exercise_close_unconditional_witness :
    step ([], some ⟨"ExA", []⟩) "ExB" = .ok ([⟨"ExA", []⟩], some ⟨"ExB", []⟩) :=
  c1_exercise_close_unconditional [] ⟨"ExA", []⟩ "ExB" (by decide) (by decide)
    (by decide) (by decide) (by decide)

/-- C2, counterexample: `parse_workout` on `"T\nmonday\nExA\nExB"`
returns a `Workout` (not "no result") whose only exercise has an empty
set list, so `get_total_sets()` is `0`: the claimed invariant "at least
one exercise with at least one set" fails. -/
theorem c2_workout_with_zero_sets :
    parse_workout (fun _ => none) 0 "T\nmonday\nExA\nExB" =
      some ⟨"T", 0, [⟨"ExA", []⟩]⟩ ∧
    Workout.get_total_sets ⟨"T", 0, [⟨"ExA", []⟩]⟩ = 0 := by
  constructor
  · decide
  · decide

/-- Helper for C2 (amended): the success branch of the body only builds
a workout from a nonempty exercise list. -/
theorem assembleWorkout_ok_shape {nm : String} {dt : Int}
    {res : Except String (List Exercise × Option Exercise)} {w : Workout}
    (h : assembleWorkout nm dt res = .ok (some w)) : w.exercises ≠ [] := by
  unfold assembleWorkout at h
  split at h
  · exact absurd h (by simp)
  · simp only [Except.ok.injEq] at h
    split at h
    · exact absurd h (by simp)
    · rename_i hne
      obtain rfl := Option.some.inj h
      simpa [List.isEmpty_iff] using hne

/-- C2 (amended): whenever `parse_workout` returns a `Workout`, that
workout has at least one exercise; it need not contain any set (an
exercise closed by a later exercise-name line is kept even with zero
sets, so `get_total_sets()` can be `0`). -/
theorem c2_returned_workout_has_exercise
    (resolve : String → Option Int) (now : Int) (text : String) (w : Workout)
    (h : parse_workout resolve now text = some w) : w.exercises ≠ [] := by
  unfold parse_workout at h
  cases hp : parseWorkoutE resolve now text with
  | error e => rw [hp] at h; exact absurd h (by simp)
  | ok r =>
    rw [hp] at h
    simp only at h
    subst h
    exact assembleWorkout_ok_shape hp

/-- C3: evaluation at the failing input.  On the line
`"W: 40 kg × 10 reps"` the greedy optional-index group of `SET_PATTERN`
captures the `4` of `40` and the remaining `0` becomes the weight
capture, so the created set has `weight = 0.0` and `set_number = 4` —
not `weight = 40` as the grammar intends (cf. the pattern's own comment,
line 90, which names exactly this line as an example). -/
theorem c3_warmup_weight_misparsed :
    setSearch "W: 40 kg × 10 reps" = some (some ['4'], ['0'], ['1', '0']) ∧
    parse_workout (fun _ => none) 0 "Bench\nmonday\nBench Press\nW: 40 kg × 10 reps" =
      some ⟨"Bench", 0, [⟨"Bench Press", [⟨4, some 0, some 10, none, true⟩]⟩]⟩ := by
  constructor
  · decide
  · decide

/-- C10: a line `"Set 1:"` (set label, index, colon, nothing after) is
classified as a duration set: with an open exercise it appends a
`WorkoutSet` whose `duration` is the literal token `":"` (the bare colon
satisfies the `[\d:]+` class after the `:?` backtracks), and no new
exercise is opened — the committed list and the current exercise's name
are unchanged. -/
theorem c10_bare_label_is_duration_set (w : List Exercise) (ex : Exercise) :
    step (w, some ex) "Set 1:" =
      .ok (w, some ⟨ex.name, ex.sets ++ [⟨1, none, none, some ":", false⟩]⟩) := rfl

/-- C4: a weighted set line with no explicit index (group 1 absent),
appended to the open exercise, gets `set_number = len(current_exercise.sets) + 1`. -/
theorem c4_set_index_defaulting
    (w : List Exercise) (ex : Exercise) (l : String)
    (ws rs : List Char) (q : ℚ) (r : Nat)
    (hne : (pyStrip l).toList.isEmpty = false)
    (hh : pyStartsWith (pyStrip l) "http" = false)
    (hs : setSearch (pyStrip l) = some (none, ws, rs))
    (hq : floatE ws = .ok q) (hr : natE rs = .ok r) :
    step (w, some ex) l = .ok (w, some ⟨ex.name, ex.sets ++
      [⟨ex.sets.length + 1, some q, some r, none, pyStartsWith (pyStrip l) "W:"⟩]⟩) := by
  have hne' : ¬(pyStrip l).data = [] := by
    intro hc
    simp only [String.toList] at hne
    rw [hc] at hne
    simp at hne
  unfold step
  simp [hne', hh, hs, hq, hr, setNumE]

/-- Witness for `c4_set_index_defaulting`: the line
`"Set: 20 kg × 12 reps"` has no index, and on an exercise with no sets
yet it creates set number `1`. -/
theorem c4_set_index_defaulting_witness :
    step ([], some ⟨"Bench", []⟩) "Set: 20 kg × 12 reps" =
      .ok ([], some ⟨"Bench", [⟨1, some 20, some 12, none, false⟩]⟩) :=
  c4_set_index_defaulting [] ⟨"Bench", []⟩ "Set: 20 kg × 12 reps"
    ['2', '0'] ['1', '2'] 20 12 (by decide) (by decide) (by decide) (by decide)
    (by decide)

/-- C6: first-match-wins priority of the set grammars.  (a) When
`SET_PATTERN` matches, the created set has a parsed weight and reps and
no duration, regardless of whether the other grammars also match.
(b) When `SET_PATTERN` does not match but `BODYWEIGHT_PATTERN` does, the
created set has reps and no duration, with no condition on
`DURATION_PATTERN` — in particular even when the duration grammar also
matches the line. -/
theorem c6_grammar_priority (w : List Exercise) (ex : Exercise) (l : String) :
    (∀ g1 ws rs n q r,
      (pyStrip l).toList.isEmpty = false →
      pyStartsWith (pyStrip l) "http" = false →
      setSearch (pyStrip l) = some (g1, ws, rs) →
      setNumE g1 ex = .ok n → floatE ws = .ok q → natE rs = .ok r →
      step (w, some ex) l = .ok (w, some ⟨ex.name, ex.sets ++
        [⟨n, some q, some r, none, pyStartsWith (pyStrip l) "W:"⟩]⟩)) ∧
    (∀ g1 rs n r,
      (pyStrip l).toList.isEmpty = false →
      pyStartsWith (pyStrip l) "http" = false →
      setSearch (pyStrip l) = none →
      bwSearch (pyStrip l) = some (g1, rs) →
      setNumE (some g1) ex = .ok n → natE rs = .ok r →
      step (w, some ex) l = .ok (w, some ⟨ex.name, ex.sets ++
        [⟨n, none, some r, none, false⟩]⟩)) := by
  constructor
  · intro g1 ws rs n q r hne hh hs hn hq hr
    have hne' : ¬(pyStrip l).data = [] := by
      intro hc
      simp only [String.toList] at hne
      rw [hc] at hne
      simp at hne
    unfold step
    simp [hne', hh, hs, hn, hq, hr]
  · intro g1 rs n r hne hh hs hb hn hr
    have hne' : ¬(pyStrip l).data = [] := by
      intro hc
      simp only [String.toList] at hne
      rw [hc] at hne
      simp at hne
    unfold step
    simp [hne', hh, hs, hb, hn, hr]

/-- Witness for `c6_grammar_priority`: part (a) at
`"Set 1: 20 kg × 12 reps"`, part (b) at `"Série 1: 15 reps"` — a line the
duration grammar also matches. -/
theorem c6_grammar_priority_witness :
    step ([], some ⟨"Bench", []⟩) "Set 1: 20 kg × 12 reps" =
      .ok ([], some ⟨"Bench", [⟨1, some 20, some 12, none, false⟩]⟩) ∧
    (durSearch (pyStrip "Série 1: 15 reps")).isSome = true ∧
    step ([], some ⟨"Plank", []⟩) "Série 1: 15 reps" =
      .ok ([], some ⟨"Plank", [⟨1, none, some 15, none, false⟩]⟩) :=
  ⟨(c6_grammar_priority [] ⟨"Bench", []⟩ "Set 1: 20 kg × 12 reps").1
      (some ['1']) ['2', '0'] ['1', '2'] 1 20 12 (by decide) (by decide)
      (by decide) (by decide) (by decide) (by decide),
   by decide,
   (c6_grammar_priority [] ⟨"Plank", []⟩ "Série 1: 15 reps").2
      ['1'] ['1', '5'] 1 15 (by decide) (by decide) (by decide) (by decide)
      (by decide) (by decide)⟩

/-- C8: the weekday-cleaning step maps `"terça-feira, 12 de março"` and
`"12 de março"` to the identical cleaned text, so the downstream date
resolution — the same external pipeline applied to the cleaned text at
the same current instant — coincides on the two lines. -/
theorem c8_weekday_stripping :
    cleanDateLine "terça-feira, 12 de março" = "12 de março" ∧
    cleanDateLine "12 de março" = "12 de março" ∧
    ∀ (resolve : String → Option Int) (now : Int),
      resolveWorkoutDate resolve now "terça-feira, 12 de março" =
        resolveWorkoutDate resolve now "12 de março" := by
  refine ⟨by decide, by decide, fun resolve now => ?_⟩
  unfold resolveWorkoutDate
  have h : cleanDateLine (pyStrip "terça-feira, 12 de março") =
      cleanDateLine (pyStrip "12 de março") := by decide
  rw [h]

/-- An anchored match implies a successful search on the same input. -/
theorem searchL_isSome_of_at {α : Type} (f : List Char → Option α) (cs : List Char)
    (h : (f cs).isSome = true) : (searchL f cs).isSome = true := by
  cases cs with
  | nil => simpa [searchL] using h
  | cons c t =>
    unfold searchL
    cases hf : f (c :: t) with
    | some r => simp
    | none => rw [hf] at h; simp at h

/-- A successful search on a suffix implies a successful search on the
whole input (the scan reaches the suffix's positions). -/
theorem searchL_isSome_append {α : Type} (f : List Char → Option α)
    (pre rest : List Char) (h : (searchL f rest).isSome = true) :
    (searchL f (pre ++ rest)).isSome = true := by
  induction pre with
  | nil => simpa using h
  | cons c t ih =>
    show (searchL f (c :: (t ++ rest))).isSome = true
    unfold searchL
    cases hf : f (c :: (t ++ rest)) with
    | some r => simp
    | none => exact ih

/-- The set-marker pattern `(?:Série|Set)\s*\d+:` matches at the start of
`"Set 1:" ++ rest` for every continuation `rest`. -/
theorem markerAt_set1 (rest : List Char) :
    markerAt ('S' :: 'e' :: 't' :: ' ' :: '1' :: ':' :: rest) = some () := rfl

/-- C9: the admissibility gate.  (a) Any text containing the substring
`"Set 1: 20 kg × 12 reps"` passes `is_strong_workout` (the set-marker
check already fires).  (b) Any text on which the set-marker search, the
weight/reps search and the app-link check all fail is rejected. -/
theorem c9_gate (t : String) :
    ((∃ pre post : List Char,
        t.toList = pre ++ ("Set 1: 20 kg × 12 reps".toList ++ post)) →
      is_strong_workout t = true) ∧
    (has_set_marker t = false → has_weight_reps t = false →
      has_link t = false → is_strong_workout t = false) := by
  constructor
  · rintro ⟨pre, post, hdec⟩
    have h2 : markerAt ("Set 1: 20 kg × 12 reps".toList ++ post) = some () :=
      markerAt_set1 (" 20 kg × 12 reps".toList ++ post)
    have h3 : (searchL markerAt (pre ++ ("Set 1: 20 kg × 12 reps".toList ++ post))).isSome = true :=
      searchL_isSome_append markerAt pre _
        (searchL_isSome_of_at markerAt _ (by rw [h2]; rfl))
    unfold is_strong_workout has_set_marker
    rw [hdec, h3]
    rfl
  · intro h1 h2 h3
    unfold is_strong_workout
    rw [h1, h2, h3]
    rfl

/-- Witness for `c9_gate`: part (a) at a two-line text containing the set
line, part (b) at unrelated text. -/
theorem c9_gate_witness :
    is_strong_workout "Squat\nSet 1: 20 kg × 12 reps" = true ∧
    is_strong_workout "hello world" = false :=
  ⟨(c9_gate "Squat\nSet 1: 20 kg × 12 reps").1
      ⟨"Squat\n".toList, [], by decide⟩,
   (c9_gate "hello world").2 (by decide) (by decide) (by decide)⟩

/-- Witness for `c2_returned_workout_has_exercise` at a concrete parse. -/
theorem c2_returned_workout_has_exercise_witness :
    (⟨"T", 0, [⟨"ExA", []⟩]⟩ : Workout).exercises ≠ [] :=
  c2_returned_workout_has_exercise (fun _ => none) 0 "T\nmonday\nExA\nExB"
    ⟨"T", 0, [⟨"ExA", []⟩]⟩ (by decide)

/-! ### Shape of the matcher captures

Every capture produced by the three grammar matchers is a string the
numeric conversions of the set-creation code accept: group 1 (when
present) and the reps group are nonempty digit runs, and the weight
group is `\d+` or `\d+.\d+`.  Hence `int()`/`float()` never raise on
them, which is what makes `parse_workout` total (claim C7). -/

theorem takeWhile_all {p : Char → Bool} (l : List Char) :
    (l.takeWhile p).all p = true := by
  induction l with
  | nil => rfl
  | cons c t ih =>
    by_cases hc : p c
    · simp [List.takeWhile_cons, hc, ih]
    · simp [List.takeWhile_cons, hc]

theorem takeWhile_eq_self_of_all {p : Char → Bool} {l : List Char}
    (h : l.all p = true) : l.takeWhile p = l := by
  induction l with
  | nil => rfl
  | cons c t ih =>
    simp only [List.all_cons, Bool.and_eq_true] at h
    simp [List.takeWhile_cons, h.1, ih h.2]

theorem dropWhile_eq_nil_of_all {p : Char → Bool} {l : List Char}
    (h : l.all p = true) : l.dropWhile p = [] := by
  induction l with
  | nil => rfl
  | cons c t ih =>
    simp only [List.all_cons, Bool.and_eq_true] at h
    simp [List.dropWhile_cons, h.1, ih h.2]

theorem takeWhile_append_stop {p : Char → Bool} {l : List Char} {c : Char}
    (h : l.all p = true) (hc : p c = false) (r : List Char) :
    (l ++ c :: r).takeWhile p = l ∧ (l ++ c :: r).dropWhile p = c :: r := by
  induction l with
  | nil => simp [List.takeWhile_cons, List.dropWhile_cons, hc]
  | cons a t ih =>
    simp only [List.all_cons, Bool.and_eq_true] at h
    have := ih h.2
    simp [List.takeWhile_cons, List.dropWhile_cons, h.1, this.1, this.2]

theorem ne_nil_of_isEmpty_false {α : Type} {l : List α} (h : l.isEmpty = false) :
    l ≠ [] := by
  cases l <;> simp_all

theorem natE_ok {cs : List Char} (h1 : cs ≠ []) (h2 : cs.all isDigitCh = true) :
    natE cs = .ok (digitsVal cs) := by
  cases cs with
  | nil => exact absurd rfl h1
  | cons c t => simp [natE, h2]

theorem floatE_ok_digits {cs : List Char} (h1 : cs ≠ [])
    (h2 : cs.all isDigitCh = true) : floatE cs = .ok (digitsVal cs : ℚ) := by
  have ht := takeWhile_eq_self_of_all h2
  have hd := dropWhile_eq_nil_of_all h2
  cases cs with
  | nil => exact absurd rfl h1
  | cons c t => simp [floatE, ht, hd]

theorem floatE_ok_frac {w f : List Char} (hw1 : w ≠ [])
    (hw2 : w.all isDigitCh = true) (hf1 : f ≠ [])
    (hf2 : f.all isDigitCh = true) :
    floatE (w ++ '.' :: f) =
      .ok ((digitsVal w : ℚ) + (digitsVal f : ℚ) / (10 : ℚ) ^ f.length) := by
  have hdot : isDigitCh '.' = false := rfl
  obtain ⟨ht, hd⟩ := takeWhile_append_stop hw2 hdot f
  cases w with
  | nil => exact absurd rfl hw1
  | cons c t =>
    cases f with
    | nil => exact absurd rfl hf1
    | cons a s =>
      simp only [floatE]
      rw [ht, hd]
      simp [hf2]

theorem setTail_shape {cs ws rs : List Char}
    (h : setTail cs = some (ws, rs)) : WeightShape ws ∧ DigitShape rs := by
  simp only [setTail] at h
  split at h
  · exact absurd h (by simp)
  · rename_i hw
    rw [Bool.not_eq_true] at hw
    split at h
    · exact absurd h (by simp)
    · rename_i cs6 hkg
      split at h
      · rename_i cs8
        split at h
        · exact absurd h (by simp)
        · rename_i hr
          rw [Bool.not_eq_true] at hr
          split at h
          · rename_i hrep
            simp only [Option.some.injEq, Prod.mk.injEq] at h
            obtain ⟨hws, hrs⟩ := h
            constructor
            · -- the weight capture is either the digit run or run.digits run
              subst hws
              split
              · rename_i cs3' hsplit
                split
                · rename_i hf
                  exact ⟨digitsVal _, floatE_ok_digits
                    (ne_nil_of_isEmpty_false hw) (takeWhile_all _)⟩
                · rename_i hf
                  rw [Bool.not_eq_true] at hf
                  exact ⟨_, floatE_ok_frac
                    (ne_nil_of_isEmpty_false hw) (takeWhile_all _)
                    (ne_nil_of_isEmpty_false hf) (takeWhile_all _)⟩
              · exact ⟨digitsVal _, floatE_ok_digits
                  (ne_nil_of_isEmpty_false hw) (takeWhile_all _)⟩
            · subst hrs
              exact ⟨ne_nil_of_isEmpty_false hr, takeWhile_all _⟩
          · exact absurd h (by simp)
      · exact absurd h (by simp)

theorem colonOpt_some {α : Type} {tail : List Char → Option α}
    {cs : List Char} {r : α} (h : colonOpt tail cs = some r) :
    ∃ cs', tail cs' = some r := by
  unfold colonOpt at h
  split at h
  · rename_i cs'
    generalize hg : tail cs' = o at h
    cases o with
    | some v => exact ⟨cs', hg.trans (show some v = some r from h)⟩
    | none => exact ⟨':' :: cs', show tail (':' :: cs') = some r from h⟩
  · exact ⟨_, h⟩

theorem searchL_eq_some {α : Type} {f : List Char → Option α}
    {cs : List Char} {r : α} (h : searchL f cs = some r) :
    ∃ t, f t = some r := by
  induction cs with
  | nil => exact ⟨[], h⟩
  | cons c t ih =>
    unfold searchL at h
    generalize hg : f (c :: t) = o at h
    cases o with
    | some v => exact ⟨c :: t, hg.trans (show some v = some r from h)⟩
    | none => exact ih (show searchL f t = some r from h)

theorem optOrElse_some {α : Type} {a : Option α} {b : Unit → Option α} {r : α}
    (h : a.orElse b = some r) : a = some r ∨ b () = some r := by
  cases a with
  | some v => left; simpa [Option.orElse] using h
  | none => right; simpa [Option.orElse] using h

theorem labelSerieSet_some {α : Type} {k : List Char → Option α}
    {cs : List Char} {r : α} (h : labelSerieSet k cs = some r) :
    ∃ rest, k rest = some r := by
  unfold labelSerieSet at h
  rcases optOrElse_some h with h1 | h1 <;>
    · obtain ⟨rest, _, hk⟩ := Option.bind_eq_some.mp h1
      exact ⟨rest, hk⟩

theorem take_digit_shape {run : List Char} {k : Nat}
    (hrun : run.all isDigitCh = true) (hk : k + 1 ≤ run.length) :
    DigitShape (run.take (k + 1)) := by
  constructor
  · intro hc
    have h0 : (run.take (k + 1)).length = 0 := by rw [hc]; rfl
    rw [List.length_take] at h0
    omega
  · rw [List.all_eq_true] at hrun ⊢
    intro x hx
    exact hrun x (List.mem_of_mem_take hx)

theorem setIdxLoop_shape {run cs1 : List Char} {k : Nat}
    {g1 : Option (List Char)} {ws rs : List Char}
    (hrun : run.all isDigitCh = true) (hk : k ≤ run.length)
    (h : setIdxLoop run cs1 k = some (g1, ws, rs)) :
    Group1Shape g1 ∧ WeightShape ws ∧ DigitShape rs := by
  induction k with
  | zero =>
    unfold setIdxLoop at h
    split at h
    · rename_i w r heq
      simp only [Option.some.injEq, Prod.mk.injEq] at h
      obtain ⟨hg, hw, hr⟩ := h
      obtain ⟨cs', hcs'⟩ := colonOpt_some heq
      obtain ⟨hws, hrs⟩ := setTail_shape hcs'
      subst hg hw hr
      exact ⟨Or.inl rfl, hws, hrs⟩
    · exact absurd h (by simp)
  | succ k ih =>
    unfold setIdxLoop at h
    split at h
    · rename_i w r heq
      simp only [Option.some.injEq, Prod.mk.injEq] at h
      obtain ⟨hg, hw, hr⟩ := h
      obtain ⟨cs', hcs'⟩ := colonOpt_some heq
      obtain ⟨hws, hrs⟩ := setTail_shape hcs'
      subst hg hw hr
      exact ⟨Or.inr ⟨_, rfl, take_digit_shape hrun hk⟩, hws, hrs⟩
    · exact ih (by omega) h

theorem setAfterLabel_shape {rest : List Char} {g1 : Option (List Char)}
    {ws rs : List Char} (h : setAfterLabel rest = some (g1, ws, rs)) :
    Group1Shape g1 ∧ WeightShape ws ∧ DigitShape rs := by
  simp only [setAfterLabel] at h
  exact setIdxLoop_shape (takeWhile_all _) le_rfl h

theorem setAt_shape {cs : List Char} {g1 : Option (List Char)}
    {ws rs : List Char} (h : setAt cs = some (g1, ws, rs)) :
    Group1Shape g1 ∧ WeightShape ws ∧ DigitShape rs := by
  unfold setAt at h
  rcases optOrElse_some h with h1 | h1
  · obtain ⟨rest, _, hk⟩ := Option.bind_eq_some.mp h1
    exact setAfterLabel_shape hk
  · rcases optOrElse_some h1 with h2 | h2 <;>
      · obtain ⟨rest, _, hk⟩ := Option.bind_eq_some.mp h2
        exact setAfterLabel_shape hk

theorem setSearch_shape {l : String} {g1 : Option (List Char)}
    {ws rs : List Char} (h : setSearch l = some (g1, ws, rs)) :
    Group1Shape g1 ∧ WeightShape ws ∧ DigitShape rs := by
  obtain ⟨t, ht⟩ := searchL_eq_some h
  exact setAt_shape ht

theorem bwTail_shape {cs r : List Char} (h : bwTail cs = some r) :
    DigitShape r := by
  simp only [bwTail] at h
  split at h
  · exact absurd h (by simp)
  · rename_i hr
    rw [Bool.not_eq_true] at hr
    split at h
    · simp only [Option.some.injEq] at h
      subst h
      exact ⟨ne_nil_of_isEmpty_false hr, takeWhile_all _⟩
    · exact absurd h (by simp)

theorem bwIdxLoop_shape {run cs1 : List Char} {k : Nat} {g r : List Char}
    (hrun : run.all isDigitCh = true) (hk : k ≤ run.length)
    (h : bwIdxLoop run cs1 k = some (g, r)) :
    DigitShape g ∧ DigitShape r := by
  induction k with
  | zero => exact absurd h (by simp [bwIdxLoop])
  | succ k ih =>
    unfold bwIdxLoop at h
    split at h
    · rename_i v heq
      simp only [Option.some.injEq, Prod.mk.injEq] at h
      obtain ⟨hg, hr⟩ := h
      obtain ⟨cs', hcs'⟩ := colonOpt_some heq
      subst hg hr
      exact ⟨take_digit_shape hrun hk, bwTail_shape hcs'⟩
    · exact ih (by omega) h

theorem bwSearch_shape {l : String} {g r : List Char}
    (h : bwSearch l = some (g, r)) : DigitShape g ∧ DigitShape r := by
  obtain ⟨t, ht⟩ := searchL_eq_some h
  unfold bwAt at ht
  obtain ⟨rest, hrest⟩ := labelSerieSet_some ht
  simp only [bwAfterLabel] at hrest
  exact bwIdxLoop_shape (takeWhile_all _) le_rfl hrest

theorem durIdxLoop_shape {run cs1 : List Char} {k : Nat} {g d : List Char}
    (hrun : run.all isDigitCh = true) (hk : k ≤ run.length)
    (h : durIdxLoop run cs1 k = some (g, d)) : DigitShape g := by
  induction k with
  | zero => exact absurd h (by simp [durIdxLoop])
  | succ k ih =>
    unfold durIdxLoop at h
    split at h
    · rename_i v heq
      simp only [Option.some.injEq, Prod.mk.injEq] at h
      obtain ⟨hg, hd⟩ := h
      subst hg hd
      exact take_digit_shape hrun hk
    · exact ih (by omega) h

theorem durSearch_shape {l : String} {g d : List Char}
    (h : durSearch l = some (g, d)) : DigitShape g := by
  obtain ⟨t, ht⟩ := searchL_eq_some h
  unfold durAt at ht
  obtain ⟨rest, hrest⟩ := labelSerieSet_some ht
  simp only [durAfterLabel] at hrest
  exact durIdxLoop_shape (takeWhile_all _) le_rfl hrest

theorem setNumE_ok_of_group {g1 : Option (List Char)} (ex : Exercise)
    (h : Group1Shape g1) : ∃ n, setNumE g1 ex = .ok n := by
  rcases h with rfl | ⟨s, rfl, hs1, hs2⟩
  · exact ⟨ex.sets.length + 1, rfl⟩
  · have he : s.isEmpty = false := by
      cases s with
      | nil => exact absurd rfl hs1
      | cons a t => rfl
    exact ⟨digitsVal s, by simp [setNumE, he, natE_ok hs1 hs2]⟩

theorem setNumE_ok_of_digit {s : List Char} (ex : Exercise)
    (h : DigitShape s) : ∃ n, setNumE (some s) ex = .ok n :=
  setNumE_ok_of_group ex (Or.inr ⟨s, rfl, h⟩)

/-- The loop body never throws: every numeric conversion it performs is
applied to a capture whose shape the grammar guarantees. -/
theorem step_ok (st : List Exercise × Option Exercise) (l : String) :
    ∃ st', step st l = .ok st' := by
  simp only [step]
  split
  · exact ⟨st, rfl⟩
  · split
    · match hcur : st.2 with
      | none => exact ⟨st, rfl⟩
      | some ex =>
        cases hsm : setSearch (pyStrip l) with
        | some t =>
          obtain ⟨g1, ws, rs⟩ := t
          obtain ⟨hg, hws, hrs⟩ := setSearch_shape hsm
          obtain ⟨n, hn⟩ := setNumE_ok_of_group ex hg
          obtain ⟨q, hq⟩ := hws
          simp only [hn, hq, natE_ok hrs.1 hrs.2]
          exact ⟨_, rfl⟩
        | none =>
          cases hbm : bwSearch (pyStrip l) with
          | some t =>
            obtain ⟨g1, rs⟩ := t
            obtain ⟨hg, hrs⟩ := bwSearch_shape hbm
            obtain ⟨n, hn⟩ := setNumE_ok_of_digit ex hg
            simp only [hn, natE_ok hrs.1 hrs.2]
            exact ⟨_, rfl⟩
          | none =>
            cases hdm : durSearch (pyStrip l) with
            | some t =>
              obtain ⟨g1, ds⟩ := t
              obtain ⟨n, hn⟩ := setNumE_ok_of_digit ex (durSearch_shape hdm)
              simp only [hn]
              exact ⟨_, rfl⟩
            | none => exact ⟨st, rfl⟩
    · exact ⟨_, rfl⟩

theorem processLines_ok (ls : List String) :
    ∀ st, ∃ st', ls.foldlM step st = .ok st' := by
  induction ls with
  | nil => intro st; exact ⟨st, rfl⟩
  | cons a t ih =>
    intro st
    obtain ⟨st1, h1⟩ := step_ok st a
    obtain ⟨st2, h2⟩ := ih st1
    refine ⟨st2, ?_⟩
    rw [List.foldlM_cons, h1]
    exact h2

theorem parseWorkoutE_ok (resolve : String → Option Int) (now : Int)
    (text : String) : ∃ r, parseWorkoutE resolve now text = .ok r := by
  simp only [parseWorkoutE, processLines]
  obtain ⟨st, hst⟩ := processLines_ok ((workoutLines text).drop 2) ([], none)
  rw [hst]
  exact ⟨_, rfl⟩

/-- C7: `parse_workout` never lets an exception escape.  The body
(`parseWorkoutE`) in fact never reaches an internal fault — every
`int()`/`float()` argument is a capture whose shape the matching grammar
guarantees — and the result is returned as is; had the body produced an
error, the top-level handler (`except Exception: return None`, modelled
by the `match` in `parse_workout`) would turn it into "no result", so
for every input text the call returns either a `Workout` or no result. -/
theorem c7_no_uncaught_exception (resolve : String → Option Int) (now : Int)
    (text : String) :
    ∃ r, parseWorkoutE resolve now text = .ok r ∧
      parse_workout resolve now text = r := by
  obtain ⟨r, hr⟩ := parseWorkoutE_ok resolve now text
  refine ⟨r, hr, ?_⟩
  unfold parse_workout
  rw [hr]

/-! ### Counting sets through the accumulation loop (claim C5) -/

/-- A line whose stripped form is empty matches none of the grammars. -/
theorem isMatchLine_false_of_empty {l : String}
    (h : (pyStrip l).toList.isEmpty = true) : isMatchLine l = false := by
  have hdata : (pyStrip l).toList = [] := List.isEmpty_iff.mp h
  unfold isMatchLine setSearch bwSearch durSearch
  rw [hdata]
  rfl

/-- Under the no-`http`-set-line hypothesis, a skipped line matches no
grammar. -/
theorem isMatchLine_false_of_skip {l : String} (hs : skipLine l = true)
    (hh : isMatchLine l = true → pyStartsWith (pyStrip l) "http" = false) :
    isMatchLine l = false := by
  by_cases hm : isMatchLine l
  · exfalso
    unfold skipLine at hs
    rcases Bool.or_eq_true_iff.mp hs with h1 | h1
    · rw [isMatchLine_false_of_empty h1] at hm
      exact Bool.false_ne_true hm
    · rw [hh hm] at h1
      exact Bool.false_ne_true h1
  · simpa using hm

/-- A skipped line leaves the state unchanged (line 176). -/
theorem step_skip {l : String} (h : skipLine l = true)
    (st : List Exercise × Option Exercise) : step st l = .ok st := by
  unfold skipLine at h
  simp only [step]
  rw [if_pos h]

/-- A non-skipped, non-matching line with no open exercise opens a fresh
current exercise named by the stripped line (lines 222–226). -/
theorem step_exercise_none {l : String} (hs : skipLine l = false)
    (hm : isMatchLine l = false) (w : List Exercise) :
    step (w, none) l = .ok (w, some ⟨pyStrip l, []⟩) := by
  unfold skipLine at hs
  obtain ⟨hs1, hs2⟩ := Bool.or_eq_false_iff.mp hs
  unfold isMatchLine at hm
  simp only [Bool.or_eq_false_iff] at hm
  simp only [step]
  rw [if_neg (by rw [hs]; simp)]
  rw [hm.1.1, hm.1.2, hm.2]
  simp

/-- Per-line counting invariant: with an exercise open, a step keeps an
exercise open and adds exactly one set when (and only when) the line
matches a set grammar; an `http`-prefixed line is assumed not to match
(the skip test fires before the grammars are consulted). -/
theorem step_count {st : List Exercise × Option Exercise} {ex : Exercise}
    {l : String} {st' : List Exercise × Option Exercise}
    (hcur : st.2 = some ex) (hstep : step st l = .ok st')
    (hh : isMatchLine l = true → pyStartsWith (pyStrip l) "http" = false) :
    st'.2.isSome = true ∧
      stTotal st' = stTotal st + (if isMatchLine l then 1 else 0) := by
  have hstT : stTotal st = (st.1.map (fun e => e.sets.length)).sum + ex.sets.length := by
    unfold stTotal
    rw [hcur]
  simp only [step] at hstep
  split at hstep
  · rename_i hskip
    have hm : isMatchLine l = false :=
      isMatchLine_false_of_skip (by unfold skipLine; exact hskip) hh
    obtain rfl := Except.ok.inj hstep
    rw [hcur, hm]
    simp [Option.isSome]
  · split at hstep
    · rename_i hguard
      rw [hcur] at hstep
      cases hsm : setSearch (pyStrip l) with
      | some t =>
        obtain ⟨g1, ws, rs⟩ := t
        obtain ⟨hg, hws, hrs⟩ := setSearch_shape hsm
        obtain ⟨n, hn⟩ := setNumE_ok_of_group ex hg
        obtain ⟨q, hq⟩ := hws
        rw [hsm] at hstep
        simp only [hn, hq, natE_ok hrs.1 hrs.2] at hstep
        obtain rfl := Except.ok.inj hstep
        have hm : isMatchLine l = true := by
          unfold isMatchLine
          rw [hsm]
          rfl
        rw [hm, hstT]
        unfold stTotal
        simp
        exact (Nat.add_assoc _ _ _).symm
      | none =>
        rw [hsm] at hstep
        cases hbm : bwSearch (pyStrip l) with
        | some t =>
          obtain ⟨g1, rs⟩ := t
          obtain ⟨hg, hrs⟩ := bwSearch_shape hbm
          obtain ⟨n, hn⟩ := setNumE_ok_of_digit ex hg
          rw [hbm] at hstep
          simp only [hn, natE_ok hrs.1 hrs.2] at hstep
          obtain rfl := Except.ok.inj hstep
          have hm : isMatchLine l = true := by
            unfold isMatchLine
            rw [hbm]
            simp
          rw [hm, hstT]
          unfold stTotal
          simp
          exact (Nat.add_assoc _ _ _).symm
        | none =>
          rw [hbm] at hstep
          cases hdm : durSearch (pyStrip l) with
          | some t =>
            obtain ⟨g1, ds⟩ := t
            obtain ⟨n, hn⟩ := setNumE_ok_of_digit ex (durSearch_shape hdm)
            rw [hdm] at hstep
            simp only [hn] at hstep
            obtain rfl := Except.ok.inj hstep
            have hm : isMatchLine l = true := by
              unfold isMatchLine
              rw [hdm]
              simp
            rw [hm, hstT]
            unfold stTotal
            simp
            exact (Nat.add_assoc _ _ _).symm
          | none =>
            rw [hdm] at hstep
            obtain rfl := Except.ok.inj hstep
            have hm : isMatchLine l = false := by
              unfold isMatchLine
              rw [hsm, hbm, hdm]
              rfl
            rw [hcur, hm]
            simp [Option.isSome]
    · rename_i hguard
      rw [hcur] at hstep
      obtain rfl := Except.ok.inj hstep
      have hm : isMatchLine l = false := by
        unfold isMatchLine
        simpa using hguard
      rw [hm, hstT]
      unfold stTotal
      simp

theorem matchedCount_cons (a : String) (t : List String) :
    matchedCount (a :: t) =
      (if isMatchLine a then 1 else 0) + matchedCount t := by
  unfold matchedCount
  rw [List.filter_cons]
  by_cases hm : isMatchLine a
  · simp [hm]
    omega
  · simp [hm]

theorem fold_skip : ∀ (pre : List String),
    (∀ l ∈ pre, skipLine l = true) →
    ∀ st : List Exercise × Option Exercise, pre.foldlM step st = .ok st := by
  intro pre
  induction pre with
  | nil => intro _ st; rfl
  | cons a t ih =>
    intro h st
    rw [List.foldlM_cons, step_skip (h a (by simp)) st]
    exact ih (fun l hl => h l (by simp [hl])) st

theorem fold_count : ∀ (ls : List String) (st : List Exercise × Option Exercise),
    st.2.isSome = true →
    (∀ l ∈ ls, isMatchLine l = true → pyStartsWith (pyStrip l) "http" = false) →
    ∃ st', ls.foldlM step st = .ok st' ∧ st'.2.isSome = true ∧
      stTotal st' = stTotal st + matchedCount ls := by
  intro ls
  induction ls with
  | nil =>
    intro st h1 _
    exact ⟨st, rfl, h1, by simp [matchedCount]⟩
  | cons a t ih =>
    intro st h1 h2
    obtain ⟨ex, hex⟩ := Option.isSome_iff_exists.mp h1
    obtain ⟨st1, hstep⟩ := step_ok st a
    obtain ⟨hsome1, hcount1⟩ := step_count hex hstep (h2 a (by simp))
    obtain ⟨st2, hfold, hsome2, hcount2⟩ :=
      ih st1 hsome1 (fun l hl => h2 l (by simp [hl]))
    refine ⟨st2, ?_, hsome2, ?_⟩
    · rw [List.foldlM_cons, hstep]
      exact hfold
    · rw [hcount2, hcount1, matchedCount_cons]
      omega

/-- The set count survives the end-of-input flush: a dropped trailing
exercise has no sets, so it contributes nothing. -/
theorem finalize_total {st : List Exercise × Option Exercise} {ex : Exercise}
    (h : st.2 = some ex) :
    ((finalizeExercises st).map (fun e => e.sets.length)).sum = stTotal st := by
  unfold finalizeExercises stTotal
  rw [h]
  by_cases he : ex.sets.isEmpty
  · have h0 : ex.sets = [] := List.isEmpty_iff.mp he
    simp [he, h0]
  · simp [he]

theorem finalize_ne_nil {st : List Exercise × Option Exercise} {ex : Exercise}
    (h : st.2 = some ex) (ht : 1 ≤ stTotal st) :
    (finalizeExercises st).isEmpty = false := by
  have htot := finalize_total h
  cases hl : finalizeExercises st with
  | nil => rw [hl] at htot; simp at htot; omega
  | cons a t => rfl

/-- C5: for every valid input (in the sense of `ValidWorkoutLines`, which
captures "≥ 1 exercise and ≥ 1 set"), `parse_workout` returns a `Workout`
whose `get_total_sets()` equals the number of lines after the name and
date lines that match any of the three set grammars. -/
theorem c5_total_sets_eq_matched_lines (resolve : String → Option Int)
    (now : Int) (text : String)
    (hv : ValidWorkoutLines ((workoutLines text).drop 2)) :
    ∃ w, parse_workout resolve now text = some w ∧
      w.get_total_sets = matchedCount ((workoutLines text).drop 2) := by
  obtain ⟨⟨pre, e, rest, hsplit, hpre, hse, hme⟩, hhttp, hex⟩ := hv
  have hA : List.foldlM step ([], (none : Option Exercise)) pre =
      .ok ([], none) := fold_skip pre hpre ([], none)
  have hB : step ([], (none : Option Exercise)) e =
      .ok ([], some ⟨pyStrip e, []⟩) := step_exercise_none hse hme []
  obtain ⟨st', h1, hsome, h3⟩ := fold_count rest ([], some ⟨pyStrip e, []⟩) rfl
    (fun l hl hm => hhttp l (by rw [hsplit]; simp [hl]) hm)
  have hproc : processLines ((workoutLines text).drop 2) = .ok st' := by
    unfold processLines
    rw [hsplit, List.foldlM_append, hA]
    show (e :: rest).foldlM step ([], none) = .ok st'
    rw [List.foldlM_cons, hB]
    exact h1
  have hmc : matchedCount ((workoutLines text).drop 2) = matchedCount rest := by
    rw [hsplit]
    unfold matchedCount
    rw [List.filter_append, List.filter_cons]
    have hpre0 : List.filter isMatchLine pre = [] := by
      rw [List.filter_eq_nil_iff]
      intro l hl
      have := isMatchLine_false_of_skip (hpre l hl)
        (hhttp l (by rw [hsplit]; simp [hl]))
      simp [this]
    rw [hpre0, hme]
    simp
  have hcount : stTotal st' = matchedCount ((workoutLines text).drop 2) := by
    rw [hmc, h3]
    simp [stTotal]
  obtain ⟨ex', hex'⟩ := Option.isSome_iff_exists.mp hsome
  have hge : 1 ≤ stTotal st' := by
    rw [hcount]
    obtain ⟨l, hl, hm⟩ := hex
    have hmem : l ∈ List.filter isMatchLine ((workoutLines text).drop 2) :=
      List.mem_filter.mpr ⟨hl, hm⟩
    have := List.length_pos.mpr (List.ne_nil_of_mem hmem)
    unfold matchedCount
    omega
  have hne := finalize_ne_nil hex' hge
  refine ⟨⟨(match workoutLines text with | [] => "Workout" | l :: _ => pyStrip l),
    (match (workoutLines text)[1]? with
      | none => now
      | some l => resolveWorkoutDate resolve now l),
    finalizeExercises st'⟩, ?_, ?_⟩
  · simp only [parse_workout, parseWorkoutE]
    rw [hproc]
    simp [assembleWorkout, hne]
  · show ((finalizeExercises st').map (fun e => e.sets.length)).sum =
      matchedCount ((workoutLines text).drop 2)
    rw [finalize_total hex', hcount]

/-- Witness for `c5_total_sets_eq_matched_lines` at the spec's example
input: two matched set lines, total sets 2. -/
theorem c5_total_sets_eq_matched_lines_witness :
    ∃ w, parse_workout (fun _ => none) 0
        "Leg Day\nTuesday\nSquat\nSet 1: 60 kg × 8 reps\nSet 2: 60 kg × 8 reps" =
          some w ∧
      w.get_total_sets = matchedCount ((workoutLines
        "Leg Day\nTuesday\nSquat\nSet 1: 60 kg × 8 reps\nSet 2: 60 kg × 8 reps").drop 2) :=
  c5_total_sets_eq_matched_lines (fun _ => none) 0
    "Leg Day\nTuesday\nSquat\nSet 1: 60 kg × 8 reps\nSet 2: 60 kg × 8 reps"
    ⟨⟨[], "Squat", ["Set 1: 60 kg × 8 reps", "Set 2: 60 kg × 8 reps"],
      by decide, by decide, by decide, by decide⟩,
     by decide,
     ⟨"Set 1: 60 kg × 8 reps", by decide, by decide⟩⟩
